import Mathlib

/-!
Verification of the sizing-and-selection engine of the `prime` photovoltaic
budgeting repository (`Precios.py`, `Ahorros.py`).  Python floats are embedded
as rationals; Python's `%` on nonzero divisors and `int()` truncation are made
explicit; the `ZeroDivisionError` that `calcular_kit` can raise on a
zero-voltage battery entry is embedded through `Except Unit`.
-/

set_option autoImplicit false
set_option linter.unusedVariables false

namespace Solar

/-- Truncation toward zero on rationals, the behaviour of Python's `int()`
conversion applied to a float. -/
def ratTrunc (q : ℚ) : ℤ := if 0 ≤ q then ⌊q⌋ else ⌈q⌉

/-- Python's `%` on numbers with a nonzero divisor: `a - ⌊a / b⌋ * b`
(the result carries the sign of the divisor). -/
def pymod (a b : ℚ) : ℚ := a - ⌊a / b⌋ * b

/-- The three pricing categories of `CATEGORIES` in `Precios.py`. -/
inductive Categoria : Type
  | Barato
  | Intermedio
  | Premium
deriving DecidableEq

/-- One appliance-load record as produced by `leer_cargas` /
`seleccionar_cargas_gui`: name, quantity, unit power (W), daytime hours and
night-time hours. -/
structure Carga where
  aparato : String
  cantidad : ℚ
  carga : ℚ
  horas_dia : ℚ
  horas_noche : ℚ
deriving DecidableEq

/-- An hourly irradiance curve, a finite map from hour of day to W/m²
(`Dict[int, float]` in the source). -/
def Curva : Type := List (ℤ × ℚ)

/-- Function `curva_irradiacion_cusco` from `Precios.py`: the fixed 14-point hourly
profile for hours 6..19. -/
def curva_irradiacion_cusco : Curva :=
  [(6, 0), (7, 100), (8, 300), (9, 500), (10, 700), (11, 850), (12, 950),
   (13, 1000), (14, 950), (15, 800), (16, 600), (17, 400), (18, 200), (19, 0)]

/-- Function `horas_solares_efectivas` from `Precios.py`: the conservative fixed value
of 5 effective sun hours, whatever the curve. -/
def horas_solares_efectivas (_curva : Curva) : ℚ := 5

/-- The loop body of `energia_dia_noche`: add `carga * cantidad * horas` of
each load into the day and night accumulators. -/
def pasoEnergia (acc : ℚ × ℚ) (c : Carga) : ℚ × ℚ :=
  (acc.1 + c.carga * c.cantidad * c.horas_dia,
   acc.2 + c.carga * c.cantidad * c.horas_noche)

/-- Function `energia_dia_noche` from `Precios.py`: day and night energy (Wh) of a load
list.  The irradiance curve parameter is accepted but never read. -/
def energia_dia_noche (cargas : List Carga) (_curva : Curva) : ℚ × ℚ :=
  cargas.foldl pasoEnergia (0, 0)

/-- Function `calcular_necesidades` from `Precios.py`: required panel power
`(dia + noche) / hs` (0 when `hs == 0`) and required battery capacity
`noche / 12` at the 12 V reference. -/
def calcular_necesidades (cargas : List Carga) (curva : Curva) : ℚ × ℚ :=
  let p := energia_dia_noche cargas curva
  let hs := horas_solares_efectivas curva
  let potencia_panel := if hs ≠ 0 then (p.1 + p.2) / hs else 0
  let capacidad_bateria := p.2 / 12
  (potencia_panel, capacidad_bateria)

/-- Function `potencia_maxima_demanda` from `Precios.py`: the sum of
`carga * cantidad` over all loads (worst-case simultaneous demand). -/
def potencia_maxima_demanda (cargas : List Carga) : ℚ :=
  cargas.foldl (fun acc c => acc + c.carga * c.cantidad) 0

/-- A catalog row of the `Paneles`, `Inversores` or `Controladores` sheets:
name, capacity rating and price. -/
structure EntradaSimple where
  nombre : String
  capacidad : ℚ
  precio : ℚ
deriving DecidableEq

/-- A catalog row of the `Baterias` sheet: name, capacity (Ah), nominal
voltage and price. -/
structure EntradaBateria where
  nombre : String
  capacidad : ℚ
  volt : ℚ
  precio : ℚ
deriving DecidableEq

/-- The catalog as organised by `leer_datos`: for each component family, the
ordered rows of each category (`.get(categoria, [])` yields `[]` for a
missing category). -/
structure Datos where
  paneles : Categoria → List EntradaSimple
  baterias : Categoria → List EntradaBateria
  inversores : Categoria → List EntradaSimple
  controladores : Categoria → List EntradaSimple

/-- The kit of one category: a description/price line item per family. -/
structure Kit where
  paneles : String × ℚ
  baterias : String × ℚ
  inversores : String × ℚ
  controladores : String × ℚ
deriving DecidableEq

/-- The value returned by `calcular_kit`: one kit per category. -/
structure Resultados where
  barato : Kit
  intermedio : Kit
  premium : Kit
deriving DecidableEq

/-- Look a category's kit up in a `Resultados`. -/
def Resultados.get (r : Resultados) : Categoria → Kit
  | .Barato => r.barato
  | .Intermedio => r.intermedio
  | .Premium => r.premium

/-- The "keep the strictly cheaper candidate" loop shared by the four family
selections of `calcular_kit`: `f` returns `none` for an ineligible row and
`some (descripcion, total)` otherwise; the running best starts as
`math.inf` (`none`) and is replaced only on a strictly smaller total. -/
def mejorOpcion {α : Type} (f : α → Option (String × ℚ)) :
    List α → Option (String × ℚ) → Option (String × ℚ)
  | [], mejor => mejor
  | x :: xs, mejor =>
    match f x with
    | none => mejorOpcion f xs mejor
    | some (d, t) =>
      match mejor with
      | none => mejorOpcion f xs (some (d, t))
      | some (d0, t0) =>
        if t < t0 then mejorOpcion f xs (some (d, t))
        else mejorOpcion f xs (some (d0, t0))

/-- The same loop when the candidate computation may raise
(`ZeroDivisionError` in the battery branch): the first raising row aborts
the whole selection. -/
def mejorOpcionE {α : Type} (f : α → Except Unit (Option (String × ℚ))) :
    List α → Option (String × ℚ) → Except Unit (Option (String × ℚ))
  | [], mejor => .ok mejor
  | x :: xs, mejor =>
    match f x with
    | .error e => .error e
    | .ok none => mejorOpcionE f xs mejor
    | .ok (some (d, t)) =>
      match mejor with
      | none => mejorOpcionE f xs (some (d, t))
      | some (d0, t0) =>
        if t < t0 then mejorOpcionE f xs (some (d, t))
        else mejorOpcionE f xs (some (d0, t0))

/-- Turn the final running best into the reported line item:
`math.inf` becomes the sentinel `("Sin datos", 0.0)`. -/
def lineaFinal (mejor : Option (String × ℚ)) : String × ℚ :=
  match mejor with
  | none => ("Sin datos", 0)
  | some dt => dt

/-- Panel count of a row: `math.ceil(potencia_panel / capacidad)`. -/
def cantidadPanel (potencia_panel : ℚ) (e : EntradaSimple) : ℤ :=
  ⌈potencia_panel / e.capacidad⌉

/-- Panel line description `f"{cantidad} x {nombre}"`. -/
def descPanel (potencia_panel : ℚ) (e : EntradaSimple) : String :=
  let cantidad : ℤ := cantidadPanel potencia_panel e
  let nombre := e.nombre
  s!"{cantidad} x {nombre}"

/-- Panel line total `cantidad * precio`. -/
def totalPanel (potencia_panel : ℚ) (e : EntradaSimple) : ℚ :=
  (cantidadPanel potencia_panel e : ℚ) * e.precio

/-- The panel loop body of `calcular_kit`: rows with `capacidad <= 0` are
skipped, the others yield `(descripcion, cantidad * precio)`. -/
def candidatoPanel (potencia_panel : ℚ) (e : EntradaSimple) :
    Option (String × ℚ) :=
  if e.capacidad ≤ 0 then none
  else some (descPanel potencia_panel e, totalPanel potencia_panel e)

/-- The inverter loop body of `calcular_kit`: a row is eligible when
`capacidad >= demanda_maxima`, and then competes on bare price. -/
def candidatoInversor (demanda_maxima : ℚ) (e : EntradaSimple) :
    Option (String × ℚ) :=
  if demanda_maxima ≤ e.capacidad then some (e.nombre, e.precio) else none

/-- The controller loop body of `calcular_kit`: every row competes on bare
price, with no capacity constraint. -/
def candidatoControlador (e : EntradaSimple) : Option (String × ℚ) :=
  some (e.nombre, e.precio)

/-- System voltage tier of `calcular_kit`: 12 V up to 1500 W of panel power,
24 V up to 5000 W, 48 V beyond. -/
def volt_sistema (potencia_panel : ℚ) : ℚ :=
  if potencia_panel ≤ 1500 then 12
  else if potencia_panel ≤ 5000 then 24
  else 48

/-- Depth-of-discharge factor used by `calcular_kit`: 0.5 for
Barato/Intermedio, 0.9 for Premium. -/
def dod : Categoria → ℚ
  | .Barato => 1/2
  | .Intermedio => 1/2
  | .Premium => 9/10

/-- Required bank amp-hours of `calcular_kit`: the night energy
`capacidad_bateria * 12` (Wh) re-expressed at the system voltage and divided
by the depth-of-discharge factor (the `if dod` guard of the source kept). -/
def capacidad_requerida (categoria : Categoria)
    (capacidad_bateria vs : ℚ) : ℚ :=
  let energia_noche_kwh := capacidad_bateria * 12 / 1000
  let ah_sistema := energia_noche_kwh * 1000 / vs
  if dod categoria ≠ 0 then ah_sistema / dod categoria else ah_sistema

/-- Cells in series of a battery row: `int(volt_sistema / volt)`. -/
def en_serie (vs : ℚ) (e : EntradaBateria) : ℤ := ratTrunc (vs / e.volt)

/-- Strings in parallel of a battery row:
`math.ceil(capacidad_requerida / capacidad)`. -/
def en_paralelo (req : ℚ) (e : EntradaBateria) : ℤ := ⌈req / e.capacidad⌉

/-- Total battery units of a row: `en_serie * en_paralelo`. -/
def unidadesBateria (vs req : ℚ) (e : EntradaBateria) : ℤ :=
  en_serie vs e * en_paralelo req e

/-- Battery line description
`f"{total_bat} x {nombre} ({en_serie}S{en_paralelo}P)"`. -/
def descBateria (vs req : ℚ) (e : EntradaBateria) : String :=
  let total_bat : ℤ := unidadesBateria vs req e
  let s : ℤ := en_serie vs e
  let p : ℤ := en_paralelo req e
  let nombre := e.nombre
  s!"{total_bat} x {nombre} ({s}S{p}P)"

/-- Battery line total `total_bat * precio`. -/
def totalBateria (vs req : ℚ) (e : EntradaBateria) : ℚ :=
  (unidadesBateria vs req e : ℚ) * e.precio

/-- The battery loop body of `calcular_kit`.  A row with `capacidad <= 0` is
skipped before the modulo is evaluated (Python's `or` short-circuits); a
remaining row with `volt == 0` raises `ZeroDivisionError`; a row whose
voltage does not evenly divide the system voltage is skipped; an eligible row
yields the series/parallel topology, its unit count and total price. -/
def candidatoBateria (vs req : ℚ) (e : EntradaBateria) :
    Except Unit (Option (String × ℚ)) :=
  if e.capacidad ≤ 0 then .ok none
  else if e.volt = 0 then .error ()
  else if pymod vs e.volt ≠ 0 then .ok none
  else .ok (some (descBateria vs req e, totalBateria vs req e))

/-- The battery loop body with the raising case mapped to `none`; used only
to describe runs in which no exception occurred. -/
def candidatoBateriaOk (vs req : ℚ) (e : EntradaBateria) :
    Option (String × ℚ) :=
  match candidatoBateria vs req e with
  | .ok o => o
  | .error _ => none

/-- Eligibility of a battery row in `calcular_kit`: positive capacity and a
nominal voltage that evenly divides the system voltage. -/
def elegibleBateria (vs : ℚ) (e : EntradaBateria) : Prop :=
  0 < e.capacidad ∧ e.volt ≠ 0 ∧ pymod vs e.volt = 0

/-- One category's pass of `calcular_kit`: the four family selections, with
the battery selection the only one that can raise. -/
def kitCategoria (datos : Datos) (categoria : Categoria)
    (potencia_panel capacidad_bateria demanda_maxima : ℚ) :
    Except Unit Kit :=
  let vs := volt_sistema potencia_panel
  let req := capacidad_requerida categoria capacidad_bateria vs
  match mejorOpcionE (candidatoBateria vs req) (datos.baterias categoria) none with
  | .error e => .error e
  | .ok mejor_bat =>
    .ok { paneles := lineaFinal
            (mejorOpcion (candidatoPanel potencia_panel) (datos.paneles categoria) none)
          baterias := lineaFinal mejor_bat
          inversores := lineaFinal
            (mejorOpcion (candidatoInversor demanda_maxima) (datos.inversores categoria) none)
          controladores := lineaFinal
            (mejorOpcion candidatoControlador (datos.controladores categoria) none) }

/-- Function `calcular_kit` from `Precios.py`: one kit per category, iterating the
categories in order; the first raising category aborts the whole call. -/
def calcular_kit (datos : Datos)
    (potencia_panel capacidad_bateria demanda_maxima : ℚ) :
    Except Unit Resultados :=
  match kitCategoria datos .Barato potencia_panel capacidad_bateria demanda_maxima with
  | .error e => .error e
  | .ok kb =>
    match kitCategoria datos .Intermedio potencia_panel capacidad_bateria demanda_maxima with
    | .error e => .error e
    | .ok ki =>
      match kitCategoria datos .Premium potencia_panel capacidad_bateria demanda_maxima with
      | .error e => .error e
      | .ok kp => .ok ⟨kb, ki, kp⟩

/-- Constant `COSTO_RED` from `Ahorros.py`: 0.83 PEN per kWh. -/
def COSTO_RED : ℚ := 83/100

/-- Constant `VIDA_UTIL_ANIOS` from `Ahorros.py`: 20 years. -/
def VIDA_UTIL_ANIOS : ℚ := 20

/-- Function `calcular_amortizacion` from `Ahorros.py` over the values of a budget
mapping: system cost, cost per kWh, payback years and lifetime savings, the
two guarded ratios becoming `⊤` (float `inf`) on a zero denominator. -/
def calcular_amortizacion (presupuesto : List (String × ℚ))
    (daily_kwh : ℚ) : ℚ × WithTop ℚ × WithTop ℚ × ℚ :=
  let costo_sistema := (presupuesto.map fun p => p.2).foldl (fun a b => a + b) 0
  let costo_anual_red := daily_kwh * COSTO_RED * 365
  let payback : WithTop ℚ :=
    if costo_anual_red ≠ 0 then ((costo_sistema / costo_anual_red : ℚ) : WithTop ℚ)
    else ⊤
  let costo_kwh : WithTop ℚ :=
    if daily_kwh ≠ 0 then
      ((costo_sistema / (daily_kwh * 365 * VIDA_UTIL_ANIOS) : ℚ) : WithTop ℚ)
    else ⊤
  let ahorro_total := costo_anual_red * VIDA_UTIL_ANIOS - costo_sistema
  (costo_sistema, costo_kwh, payback, ahorro_total)

/-- Modelled from the spec: battery count of a row under the *simple* battery
policy (the policy variant of the system's history, absent from `src/`):
`ceil(batteryAh / capacity)` at the 12 V reference, ignoring voltage. -/
def cantidadSimple (capacidad_bateria : ℚ) (e : EntradaBateria) : ℤ :=
  ⌈capacidad_bateria / e.capacidad⌉

/-- Modelled from the spec: description of a simple-policy battery line,
`"{cantidad} x {nombre}"` as for panels. -/
def descSimple (capacidad_bateria : ℚ) (e : EntradaBateria) : String :=
  let cantidad : ℤ := cantidadSimple capacidad_bateria e
  let nombre := e.nombre
  s!"{cantidad} x {nombre}"

/-- Modelled from the spec: total price of a simple-policy battery line,
`ceil(batteryAh / capacity) * price`. -/
def totalSimple (capacidad_bateria : ℚ) (e : EntradaBateria) : ℚ :=
  (cantidadSimple capacidad_bateria e : ℚ) * e.precio

/-- Modelled from the spec: the simple battery policy's loop body — rows with
`capacidad <= 0` are skipped, the voltage field is never read. -/
def candidatoBateriaSimple (capacidad_bateria : ℚ) (e : EntradaBateria) :
    Option (String × ℚ) :=
  if e.capacidad ≤ 0 then none
  else some (descSimple capacidad_bateria e, totalSimple capacidad_bateria e)

/-- Modelled from the spec: the simple battery policy — minimize
`ceil(batteryAh / capacity) * price` over battery rows with positive
capacity, first strict improvement kept, sentinel when no row is eligible. -/
def seleccion_bateria_simple (entradas : List EntradaBateria)
    (capacidad_bateria : ℚ) : String × ℚ :=
  lineaFinal (mejorOpcion (candidatoBateriaSimple capacidad_bateria) entradas none)

section FoldLemmas

variable {α : Type}

theorem mejorOpcion_cons_none (f : α → Option (String × ℚ)) (x : α)
    (xs : List α) (acc : Option (String × ℚ)) (hfx : f x = none) :
    mejorOpcion f (x :: xs) acc = mejorOpcion f xs acc := by
  simp only [mejorOpcion, hfx]

theorem mejorOpcion_cons_some_start (f : α → Option (String × ℚ)) (x : α)
    (xs : List α) (d : String) (t : ℚ) (hfx : f x = some (d, t)) :
    mejorOpcion f (x :: xs) none = mejorOpcion f xs (some (d, t)) := by
  simp only [mejorOpcion, hfx]

theorem mejorOpcion_cons_some_lt (f : α → Option (String × ℚ)) (x : α)
    (xs : List α) (d d0 : String) (t t0 : ℚ) (hfx : f x = some (d, t))
    (h : t < t0) :
    mejorOpcion f (x :: xs) (some (d0, t0)) = mejorOpcion f xs (some (d, t)) := by
  simp only [mejorOpcion, hfx]
  rw [if_pos h]

theorem mejorOpcion_cons_some_ge (f : α → Option (String × ℚ)) (x : α)
    (xs : List α) (d d0 : String) (t t0 : ℚ) (hfx : f x = some (d, t))
    (h : ¬ t < t0) :
    mejorOpcion f (x :: xs) (some (d0, t0)) = mejorOpcion f xs (some (d0, t0)) := by
  simp only [mejorOpcion, hfx]
  rw [if_neg h]

theorem mejorOpcion_all_none (f : α → Option (String × ℚ)) :
    ∀ (l : List α) (acc : Option (String × ℚ)),
    (∀ x ∈ l, f x = none) → mejorOpcion f l acc = acc := by
  intro l
  induction l with
  | nil => intro acc _; rfl
  | cons x xs ih =>
    intro acc hall
    rw [mejorOpcion_cons_none f x xs acc (hall x (List.mem_cons_self x xs))]
    exact ih acc fun z hz => hall z (List.mem_cons_of_mem x hz)

theorem mejorOpcion_acc (f : α → Option (String × ℚ)) (l : List α) :
    ∀ (d0 : String) (t0 : ℚ),
    ∃ d t, mejorOpcion f l (some (d0, t0)) = some (d, t) ∧
      (∀ x ∈ l, ∀ d1 t1, f x = some (d1, t1) → t ≤ t1) ∧
      ((d = d0 ∧ t = t0) ∨
        ∃ l1 y l2, l = l1 ++ y :: l2 ∧ f y = some (d, t) ∧ t < t0 ∧
          ∀ z ∈ l1, ∀ d1 t1, f z = some (d1, t1) → t < t1) := by
  induction l with
  | nil =>
    intro d0 t0
    exact ⟨d0, t0, rfl, by simp, Or.inl ⟨rfl, rfl⟩⟩
  | cons x xs ih =>
    intro d0 t0
    cases hfx : f x with
    | none =>
      obtain ⟨d, t, heq, hmin, hcase⟩ := ih d0 t0
      refine ⟨d, t, ?_, ?_, ?_⟩
      · rw [mejorOpcion_cons_none f x xs _ hfx]; exact heq
      · intro z hz d1 t1 hz1
        rcases List.mem_cons.mp hz with rfl | hz
        · rw [hfx] at hz1; exact absurd hz1 (by simp)
        · exact hmin z hz d1 t1 hz1
      · rcases hcase with h | ⟨l1, y, l2, hl, hy, hlt, hstr⟩
        · exact Or.inl h
        · refine Or.inr ⟨x :: l1, y, l2, by rw [hl, List.cons_append], hy, hlt, ?_⟩
          intro z hz d1 t1 hz1
          rcases List.mem_cons.mp hz with rfl | hz
          · rw [hfx] at hz1; exact absurd hz1 (by simp)
          · exact hstr z hz d1 t1 hz1
    | some p =>
      obtain ⟨d1, t1⟩ := p
      rcases lt_or_le t1 t0 with hlt | hle
      · obtain ⟨d, t, heq, hmin, hcase⟩ := ih d1 t1
        have ht1 : t ≤ t1 := by
          rcases hcase with ⟨_, h2⟩ | ⟨_, _, _, _, _, h2, _⟩
          · exact le_of_eq h2
          · exact le_of_lt h2
        refine ⟨d, t, ?_, ?_, Or.inr ?_⟩
        · rw [mejorOpcion_cons_some_lt f x xs d1 d0 t1 t0 hfx hlt]; exact heq
        · intro z hz d2 t2 hz2
          rcases List.mem_cons.mp hz with rfl | hz
          · obtain ⟨hh1, hh2⟩ : d1 = d2 ∧ t1 = t2 := by
              simpa using hfx.symm.trans hz2
            exact hh2 ▸ ht1
          · exact hmin z hz d2 t2 hz2
        · rcases hcase with ⟨hd, ht⟩ | ⟨l1, y, l2, hl, hy, h2, hstr⟩
          · subst hd; subst ht
            exact ⟨[], x, xs, rfl, hfx, hlt, by simp⟩
          · refine ⟨x :: l1, y, l2, by rw [hl, List.cons_append], hy,
              lt_trans h2 hlt, ?_⟩
            intro z hz d2 t2 hz2
            rcases List.mem_cons.mp hz with rfl | hz
            · obtain ⟨hh1, hh2⟩ : d1 = d2 ∧ t1 = t2 := by
                simpa using hfx.symm.trans hz2
              exact hh2 ▸ h2
            · exact hstr z hz d2 t2 hz2
      · obtain ⟨d, t, heq, hmin, hcase⟩ := ih d0 t0
        have ht0 : t ≤ t0 := by
          rcases hcase with ⟨_, h2⟩ | ⟨_, _, _, _, _, h2, _⟩
          · exact le_of_eq h2
          · exact le_of_lt h2
        refine ⟨d, t, ?_, ?_, ?_⟩
        · rw [mejorOpcion_cons_some_ge f x xs d1 d0 t1 t0 hfx (not_lt.mpr hle)]
          exact heq
        · intro z hz d2 t2 hz2
          rcases List.mem_cons.mp hz with rfl | hz
          · obtain ⟨hh1, hh2⟩ : d1 = d2 ∧ t1 = t2 := by
              simpa using hfx.symm.trans hz2
            exact hh2 ▸ le_trans ht0 hle
          · exact hmin z hz d2 t2 hz2
        · rcases hcase with h | ⟨l1, y, l2, hl, hy, h2, hstr⟩
          · exact Or.inl h
          · refine Or.inr ⟨x :: l1, y, l2, by rw [hl, List.cons_append], hy, h2, ?_⟩
            intro z hz d2 t2 hz2
            rcases List.mem_cons.mp hz with rfl | hz
            · obtain ⟨hh1, hh2⟩ : d1 = d2 ∧ t1 = t2 := by
                simpa using hfx.symm.trans hz2
              exact hh2 ▸ lt_of_lt_of_le h2 hle
            · exact hstr z hz d2 t2 hz2

theorem mejorOpcion_none_spec (f : α → Option (String × ℚ)) (l : List α) :
    (mejorOpcion f l none = none ∧ ∀ x ∈ l, f x = none) ∨
    ∃ d t, mejorOpcion f l none = some (d, t) ∧
      (∀ x ∈ l, ∀ d1 t1, f x = some (d1, t1) → t ≤ t1) ∧
      ∃ l1 y l2, l = l1 ++ y :: l2 ∧ f y = some (d, t) ∧
        ∀ z ∈ l1, ∀ d1 t1, f z = some (d1, t1) → t < t1 := by
  induction l with
  | nil => exact Or.inl ⟨rfl, by simp⟩
  | cons x xs ih =>
    cases hfx : f x with
    | none =>
      rcases ih with ⟨heq, hall⟩ | ⟨d, t, heq, hmin, l1, y, l2, hl, hy, hstr⟩
      · refine Or.inl ⟨?_, ?_⟩
        · rw [mejorOpcion_cons_none f x xs none hfx]; exact heq
        · intro z hz
          rcases List.mem_cons.mp hz with rfl | hz
          · exact hfx
          · exact hall z hz
      · refine Or.inr ⟨d, t, ?_, ?_, x :: l1, y, l2,
          by rw [hl, List.cons_append], hy, ?_⟩
        · rw [mejorOpcion_cons_none f x xs none hfx]; exact heq
        · intro z hz d1 t1 hz1
          rcases List.mem_cons.mp hz with rfl | hz
          · rw [hfx] at hz1; exact absurd hz1 (by simp)
          · exact hmin z hz d1 t1 hz1
        · intro z hz d1 t1 hz1
          rcases List.mem_cons.mp hz with rfl | hz
          · rw [hfx] at hz1; exact absurd hz1 (by simp)
          · exact hstr z hz d1 t1 hz1
    | some p =>
      obtain ⟨d1, t1⟩ := p
      obtain ⟨d, t, heq, hmin, hcase⟩ := mejorOpcion_acc f xs d1 t1
      have ht1 : t ≤ t1 := by
        rcases hcase with ⟨_, h2⟩ | ⟨_, _, _, _, _, h2, _⟩
        · exact le_of_eq h2
        · exact le_of_lt h2
      refine Or.inr ⟨d, t, ?_, ?_, ?_⟩
      · rw [mejorOpcion_cons_some_start f x xs d1 t1 hfx]; exact heq
      · intro z hz d2 t2 hz2
        rcases List.mem_cons.mp hz with rfl | hz
        · obtain ⟨hh1, hh2⟩ : d1 = d2 ∧ t1 = t2 := by
            simpa using hfx.symm.trans hz2
          exact hh2 ▸ ht1
        · exact hmin z hz d2 t2 hz2
      · rcases hcase with ⟨hd, ht⟩ | ⟨l1, y, l2, hl, hy, h2, hstr⟩
        · subst hd; subst ht
          exact ⟨[], x, xs, rfl, hfx, by simp⟩
        · refine ⟨x :: l1, y, l2, by rw [hl, List.cons_append], hy, ?_⟩
          intro z hz d2 t2 hz2
          rcases List.mem_cons.mp hz with rfl | hz
          · obtain ⟨hh1, hh2⟩ : d1 = d2 ∧ t1 = t2 := by
              simpa using hfx.symm.trans hz2
            exact hh2 ▸ h2
          · exact hstr z hz d2 t2 hz2

theorem mejorOpcion_congr (f g : α → Option (String × ℚ)) :
    ∀ (l : List α) (acc : Option (String × ℚ)),
    (∀ x ∈ l, f x = g x) → mejorOpcion f l acc = mejorOpcion g l acc := by
  intro l
  induction l with
  | nil => intro acc _; rfl
  | cons x xs ih =>
    intro acc hall
    have hx : f x = g x := hall x (List.mem_cons_self x xs)
    have hxs : ∀ z ∈ xs, f z = g z := fun z hz => hall z (List.mem_cons_of_mem x hz)
    cases hgx : g x with
    | none =>
      rw [mejorOpcion_cons_none f x xs acc (hx.trans hgx),
        mejorOpcion_cons_none g x xs acc hgx]
      exact ih acc hxs
    | some p =>
      obtain ⟨d, t⟩ := p
      have hfx : f x = some (d, t) := hx.trans hgx
      cases acc with
      | none =>
        rw [mejorOpcion_cons_some_start f x xs d t hfx,
          mejorOpcion_cons_some_start g x xs d t hgx]
        exact ih _ hxs
      | some q =>
        obtain ⟨d0, t0⟩ := q
        by_cases h : t < t0
        · rw [mejorOpcion_cons_some_lt f x xs d d0 t t0 hfx h,
            mejorOpcion_cons_some_lt g x xs d d0 t t0 hgx h]
          exact ih _ hxs
        · rw [mejorOpcion_cons_some_ge f x xs d d0 t t0 hfx h,
            mejorOpcion_cons_some_ge g x xs d d0 t t0 hgx h]
          exact ih _ hxs

theorem mejorOpcion_map {β : Type} (g : β → α) (f : α → Option (String × ℚ)) :
    ∀ (l : List β) (acc : Option (String × ℚ)),
    mejorOpcion f (l.map g) acc = mejorOpcion (fun x => f (g x)) l acc := by
  intro l
  induction l with
  | nil => intro acc; rfl
  | cons x xs ih =>
    intro acc
    cases hfx : f (g x) with
    | none =>
      rw [List.map_cons, mejorOpcion_cons_none f (g x) (xs.map g) acc hfx,
        mejorOpcion_cons_none (fun x => f (g x)) x xs acc hfx]
      exact ih acc
    | some p =>
      obtain ⟨d, t⟩ := p
      cases acc with
      | none =>
        rw [List.map_cons, mejorOpcion_cons_some_start f (g x) (xs.map g) d t hfx,
          mejorOpcion_cons_some_start (fun x => f (g x)) x xs d t hfx]
        exact ih _
      | some q =>
        obtain ⟨d0, t0⟩ := q
        by_cases h : t < t0
        · rw [List.map_cons, mejorOpcion_cons_some_lt f (g x) (xs.map g) d d0 t t0 hfx h,
            mejorOpcion_cons_some_lt (fun x => f (g x)) x xs d d0 t t0 hfx h]
          exact ih _
        · rw [List.map_cons, mejorOpcion_cons_some_ge f (g x) (xs.map g) d d0 t t0 hfx h,
            mejorOpcion_cons_some_ge (fun x => f (g x)) x xs d d0 t t0 hfx h]
          exact ih _

theorem mejorOpcionE_ok_of_no_error (f : α → Except Unit (Option (String × ℚ))) :
    ∀ (l : List α) (acc : Option (String × ℚ)),
    (∀ x ∈ l, f x ≠ .error ()) →
    mejorOpcionE f l acc =
      .ok (mejorOpcion (fun x => match f x with | .ok o => o | .error _ => none) l acc) := by
  intro l
  induction l with
  | nil => intro acc _; rfl
  | cons x xs ih =>
    intro acc hall
    have hxs : ∀ z ∈ xs, f z ≠ .error () :=
      fun z hz => hall z (List.mem_cons_of_mem x hz)
    cases hfx : f x with
    | error e =>
      exact absurd hfx (by cases e; exact hall x (List.mem_cons_self x xs))
    | ok o =>
      have hgx : (fun x => match f x with | .ok o => o | .error _ => none) x = o := by
        simp [hfx]
      cases o with
      | none =>
        rw [mejorOpcion_cons_none _ x xs acc hgx]
        simp only [mejorOpcionE, hfx]
        exact ih acc hxs
      | some p =>
        obtain ⟨d, t⟩ := p
        cases acc with
        | none =>
          rw [mejorOpcion_cons_some_start _ x xs d t hgx]
          simp only [mejorOpcionE, hfx]
          exact ih _ hxs
        | some q =>
          obtain ⟨d0, t0⟩ := q
          by_cases h : t < t0
          · rw [mejorOpcion_cons_some_lt _ x xs d d0 t t0 hgx h]
            simp only [mejorOpcionE, hfx]
            rw [if_pos h]
            exact ih _ hxs
          · rw [mejorOpcion_cons_some_ge _ x xs d d0 t t0 hgx h]
            simp only [mejorOpcionE, hfx]
            rw [if_neg h]
            exact ih _ hxs

theorem mejorOpcionE_no_error_of_ok (f : α → Except Unit (Option (String × ℚ))) :
    ∀ (l : List α) (acc : Option (String × ℚ)) (r : Option (String × ℚ)),
    mejorOpcionE f l acc = .ok r → ∀ x ∈ l, f x ≠ .error () := by
  intro l
  induction l with
  | nil => intro acc r _ x hx; exact absurd hx (by simp)
  | cons x xs ih =>
    intro acc r hok z hz
    cases hfx : f x with
    | error e =>
      have : mejorOpcionE f (x :: xs) acc = .error e := by
        simp only [mejorOpcionE, hfx]
      rw [this] at hok
      exact absurd hok (by simp)
    | ok o =>
      rcases List.mem_cons.mp hz with rfl | hz
      · rw [hfx]; simp
      · cases o with
        | none =>
          have hrec : mejorOpcionE f xs acc = .ok r := by
            have : mejorOpcionE f (x :: xs) acc = mejorOpcionE f xs acc := by
              simp only [mejorOpcionE, hfx]
            rw [this] at hok; exact hok
          exact ih acc r hrec z hz
        | some p =>
          obtain ⟨d, t⟩ := p
          cases acc with
          | none =>
            have hrec : mejorOpcionE f xs (some (d, t)) = .ok r := by
              have : mejorOpcionE f (x :: xs) none = mejorOpcionE f xs (some (d, t)) := by
                simp only [mejorOpcionE, hfx]
              rw [this] at hok; exact hok
            exact ih _ r hrec z hz
          | some q =>
            obtain ⟨d0, t0⟩ := q
            by_cases h : t < t0
            · have hrec : mejorOpcionE f xs (some (d, t)) = .ok r := by
                have : mejorOpcionE f (x :: xs) (some (d0, t0))
                    = mejorOpcionE f xs (some (d, t)) := by
                  simp only [mejorOpcionE, hfx]; rw [if_pos h]
                rw [this] at hok; exact hok
              exact ih _ r hrec z hz
            · have hrec : mejorOpcionE f xs (some (d0, t0)) = .ok r := by
                have : mejorOpcionE f (x :: xs) (some (d0, t0))
                    = mejorOpcionE f xs (some (d0, t0)) := by
                  simp only [mejorOpcionE, hfx]; rw [if_neg h]
                rw [this] at hok; exact hok
              exact ih _ r hrec z hz

end FoldLemmas

theorem candidatoPanel_none_iff (pp : ℚ) (e : EntradaSimple) :
    candidatoPanel pp e = none ↔ e.capacidad ≤ 0 := by
  unfold candidatoPanel
  split_ifs with h <;> simp [h]

theorem candidatoPanel_some_iff (pp : ℚ) (e : EntradaSimple) (d : String) (t : ℚ) :
    candidatoPanel pp e = some (d, t) ↔
      0 < e.capacidad ∧ d = descPanel pp e ∧ t = totalPanel pp e := by
  unfold candidatoPanel
  split_ifs with h
  · constructor
    · intro hc; exact absurd hc (by simp)
    · rintro ⟨hcap, -, -⟩; exact absurd h (not_le.mpr hcap)
  · have hcap : 0 < e.capacidad := not_le.mp h
    constructor
    · intro hc
      obtain ⟨h1, h2⟩ : descPanel pp e = d ∧ totalPanel pp e = t := by simpa using hc
      exact ⟨hcap, h1.symm, h2.symm⟩
    · rintro ⟨-, rfl, rfl⟩; rfl

theorem candidatoInversor_none_iff (dm : ℚ) (e : EntradaSimple) :
    candidatoInversor dm e = none ↔ ¬ dm ≤ e.capacidad := by
  unfold candidatoInversor
  split_ifs with h <;> simp [h]

theorem candidatoInversor_some_iff (dm : ℚ) (e : EntradaSimple) (d : String) (t : ℚ) :
    candidatoInversor dm e = some (d, t) ↔
      dm ≤ e.capacidad ∧ d = e.nombre ∧ t = e.precio := by
  unfold candidatoInversor
  split_ifs with h
  · constructor
    · intro hc
      obtain ⟨h1, h2⟩ : e.nombre = d ∧ e.precio = t := by simpa using hc
      exact ⟨h, h1.symm, h2.symm⟩
    · rintro ⟨-, rfl, rfl⟩; rfl
  · constructor
    · intro hc; exact absurd hc (by simp)
    · rintro ⟨hle, -, -⟩; exact absurd hle h

theorem candidatoBateriaOk_none_iff (vs req : ℚ) (e : EntradaBateria) :
    candidatoBateriaOk vs req e = none ↔ ¬ elegibleBateria vs e := by
  unfold candidatoBateriaOk candidatoBateria elegibleBateria
  split_ifs with h1 h2 h3
  · simp [not_lt.mpr h1]
  · simp [h2]
  · simp [h3]
  · have hcap : 0 < e.capacidad := not_le.mp h1
    have hmod : pymod vs e.volt = 0 := not_not.mp h3
    simp [hcap, h2, hmod]

theorem candidatoBateriaOk_some_iff (vs req : ℚ) (e : EntradaBateria)
    (d : String) (t : ℚ) :
    candidatoBateriaOk vs req e = some (d, t) ↔
      elegibleBateria vs e ∧ d = descBateria vs req e ∧ t = totalBateria vs req e := by
  unfold candidatoBateriaOk candidatoBateria
  split_ifs with h1 h2 h3
  · constructor
    · intro hc; exact absurd hc (by simp)
    · rintro ⟨⟨hcap, -, -⟩, -, -⟩; exact absurd h1 (not_le.mpr hcap)
  · constructor
    · intro hc; exact absurd hc (by simp)
    · rintro ⟨⟨-, hv, -⟩, -, -⟩; exact absurd h2 hv
  · constructor
    · intro hc; exact absurd hc (by simp)
    · rintro ⟨⟨-, -, hm⟩, -, -⟩; exact absurd hm h3
  · have helig : elegibleBateria vs e := ⟨not_le.mp h1, h2, not_not.mp h3⟩
    constructor
    · intro hc
      obtain ⟨hh1, hh2⟩ : descBateria vs req e = d ∧ totalBateria vs req e = t := by
        simpa using hc
      exact ⟨helig, hh1.symm, hh2.symm⟩
    · rintro ⟨-, rfl, rfl⟩; rfl

theorem candidatoBateria_ne_error (vs req : ℚ) (e : EntradaBateria)
    (h : 0 < e.capacidad → e.volt ≠ 0) :
    candidatoBateria vs req e ≠ .error () := by
  unfold candidatoBateria
  split_ifs with h1 h2 h3
  · simp
  · exact absurd h2 (h (not_le.mp h1))
  · simp
  · simp

theorem candidatoBateriaSimple_none_iff (cap : ℚ) (e : EntradaBateria) :
    candidatoBateriaSimple cap e = none ↔ e.capacidad ≤ 0 := by
  unfold candidatoBateriaSimple
  split_ifs with h <;> simp [h]

theorem candidatoBateriaSimple_some_iff (cap : ℚ) (e : EntradaBateria)
    (d : String) (t : ℚ) :
    candidatoBateriaSimple cap e = some (d, t) ↔
      0 < e.capacidad ∧ d = descSimple cap e ∧ t = totalSimple cap e := by
  unfold candidatoBateriaSimple
  split_ifs with h
  · constructor
    · intro hc; exact absurd hc (by simp)
    · rintro ⟨hcap, -, -⟩; exact absurd h (not_le.mpr hcap)
  · constructor
    · intro hc
      obtain ⟨h1, h2⟩ : descSimple cap e = d ∧ totalSimple cap e = t := by simpa using hc
      exact ⟨not_le.mp h, h1.symm, h2.symm⟩
    · rintro ⟨-, rfl, rfl⟩; rfl

theorem ratTrunc_intCast (m : ℤ) : ratTrunc (m : ℚ) = m := by
  unfold ratTrunc
  split_ifs <;> simp

theorem en_serie_mul_volt {vs : ℚ} {e : EntradaBateria}
    (hv : e.volt ≠ 0) (hm : pymod vs e.volt = 0) :
    (en_serie vs e : ℚ) * e.volt = vs := by
  have h1 : (⌊vs / e.volt⌋ : ℚ) * e.volt = vs := by
    unfold pymod at hm; linarith
  have h2 : vs / e.volt = ((⌊vs / e.volt⌋ : ℤ) : ℚ) := by
    rw [div_eq_iff hv]; exact h1.symm
  have h3 : en_serie vs e = ⌊vs / e.volt⌋ := by
    unfold en_serie
    conv_lhs => rw [h2]
    exact ratTrunc_intCast _
  rw [h3]; exact h1

theorem dod_ne_zero (cat : Categoria) : dod cat ≠ 0 := by
  cases cat <;> norm_num [dod]

theorem capacidad_requerida_eq (cat : Categoria) (cb vs : ℚ) :
    capacidad_requerida cat cb vs = cb * 12 / vs / dod cat := by
  simp only [capacidad_requerida]
  rw [if_pos (dod_ne_zero cat)]
  rw [div_mul_cancel₀ (cb * 12) (by norm_num : (1000 : ℚ) ≠ 0)]

theorem kitCategoria_eq (datos : Datos) (cat : Categoria) (pp cb dm : ℚ)
    (mb : Option (String × ℚ))
    (hmb : mejorOpcionE
        (candidatoBateria (volt_sistema pp) (capacidad_requerida cat cb (volt_sistema pp)))
        (datos.baterias cat) none = .ok mb) :
    kitCategoria datos cat pp cb dm =
      .ok { paneles := lineaFinal (mejorOpcion (candidatoPanel pp) (datos.paneles cat) none)
            baterias := lineaFinal mb
            inversores :=
              lineaFinal (mejorOpcion (candidatoInversor dm) (datos.inversores cat) none)
            controladores :=
              lineaFinal (mejorOpcion candidatoControlador (datos.controladores cat) none) } := by
  simp only [kitCategoria]
  rw [hmb]

theorem kitCategoria_error (datos : Datos) (cat : Categoria) (pp cb dm : ℚ)
    (e : Unit)
    (hmb : mejorOpcionE
        (candidatoBateria (volt_sistema pp) (capacidad_requerida cat cb (volt_sistema pp)))
        (datos.baterias cat) none = .error e) :
    kitCategoria datos cat pp cb dm = .error e := by
  simp only [kitCategoria]
  rw [hmb]

theorem kitCategoria_ok {datos : Datos} {cat : Categoria} {pp cb dm : ℚ} {k : Kit}
    (h : kitCategoria datos cat pp cb dm = .ok k) :
    ∃ mb, mejorOpcionE
        (candidatoBateria (volt_sistema pp) (capacidad_requerida cat cb (volt_sistema pp)))
        (datos.baterias cat) none = .ok mb ∧
      k = { paneles := lineaFinal (mejorOpcion (candidatoPanel pp) (datos.paneles cat) none)
            baterias := lineaFinal mb
            inversores :=
              lineaFinal (mejorOpcion (candidatoInversor dm) (datos.inversores cat) none)
            controladores :=
              lineaFinal (mejorOpcion candidatoControlador (datos.controladores cat) none) } := by
  rcases hmb : mejorOpcionE
      (candidatoBateria (volt_sistema pp) (capacidad_requerida cat cb (volt_sistema pp)))
      (datos.baterias cat) none with e | mb
  · rw [kitCategoria_error datos cat pp cb dm e hmb] at h
    exact absurd h (by simp)
  · have h2 := (kitCategoria_eq datos cat pp cb dm mb hmb).symm.trans h
    exact ⟨mb, rfl, ((by simpa using h2 : _ = k).symm)⟩

theorem calcular_kit_ok {datos : Datos} {pp cb dm : ℚ} {res : Resultados}
    (h : calcular_kit datos pp cb dm = .ok res) (cat : Categoria) :
    kitCategoria datos cat pp cb dm = .ok (res.get cat) := by
  simp only [calcular_kit] at h
  rcases hB : kitCategoria datos .Barato pp cb dm with e | kb
  · rw [hB] at h; simp at h
  · rw [hB] at h
    rcases hI : kitCategoria datos .Intermedio pp cb dm with e | ki
    · rw [hI] at h; simp at h
    · rw [hI] at h
      rcases hP : kitCategoria datos .Premium pp cb dm with e | kp
      · rw [hP] at h; simp at h
      · rw [hP] at h
        simp only [Except.ok.injEq] at h
        subst h
        cases cat
        · exact hB
        · exact hI
        · exact hP

theorem lineas_de_ok {datos : Datos} {pp cb dm : ℚ} {res : Resultados}
    (h : calcular_kit datos pp cb dm = .ok res) (cat : Categoria) :
    (res.get cat).paneles
        = lineaFinal (mejorOpcion (candidatoPanel pp) (datos.paneles cat) none) ∧
    (res.get cat).inversores
        = lineaFinal (mejorOpcion (candidatoInversor dm) (datos.inversores cat) none) ∧
    (res.get cat).controladores
        = lineaFinal (mejorOpcion candidatoControlador (datos.controladores cat) none) ∧
    (res.get cat).baterias
        = lineaFinal (mejorOpcion
            (candidatoBateriaOk (volt_sistema pp) (capacidad_requerida cat cb (volt_sistema pp)))
            (datos.baterias cat) none) ∧
    (∀ e ∈ datos.baterias cat,
      candidatoBateria (volt_sistema pp) (capacidad_requerida cat cb (volt_sistema pp)) e
        ≠ .error ()) := by
  obtain ⟨mb, hmb, hk⟩ := kitCategoria_ok (calcular_kit_ok h cat)
  have noerr := mejorOpcionE_no_error_of_ok _ _ _ _ hmb
  have hmb2 := (hmb.symm.trans
    (mejorOpcionE_ok_of_no_error _ (datos.baterias cat) none noerr))
  have hmbEq : mb = mejorOpcion
      (candidatoBateriaOk (volt_sistema pp) (capacidad_requerida cat cb (volt_sistema pp)))
      (datos.baterias cat) none := by
    have h3 : mb = mejorOpcion
        (fun x => match candidatoBateria (volt_sistema pp)
            (capacidad_requerida cat cb (volt_sistema pp)) x with
          | .ok o => o
          | .error _ => none)
        (datos.baterias cat) none := by simpa using hmb2
    rw [h3]
    exact mejorOpcion_congr _ _ _ none (fun x _ => rfl)
  rw [hk]
  exact ⟨rfl, rfl, rfl, by rw [hmbEq], noerr⟩

/-- The formal content of C2: the panel line item is produced by the first
eligible row attaining the global minimum of `ceil(pp / capacidad) * precio`
over rows with positive capacity. -/
def LineaPanelCorrecta (pp : ℚ) (entradas : List EntradaSimple)
    (linea : String × ℚ) : Prop :=
  ∃ l1 e l2, entradas = l1 ++ e :: l2 ∧ 0 < e.capacidad ∧
    linea = (descPanel pp e, totalPanel pp e) ∧
    (∀ e1 ∈ entradas, 0 < e1.capacidad → totalPanel pp e ≤ totalPanel pp e1) ∧
    (∀ e1 ∈ l1, 0 < e1.capacidad → totalPanel pp e < totalPanel pp e1)

/-- The formal content of C4: the inverter line item is either the sentinel
(when no row reaches the demand) or the cheapest row whose capacity reaches
the peak demand; under-capacity rows are never selected. -/
def LineaInversorCorrecta (dm : ℚ) (entradas : List EntradaSimple)
    (linea : String × ℚ) : Prop :=
  (linea = ("Sin datos", 0) ∧ ∀ e ∈ entradas, ¬ dm ≤ e.capacidad) ∨
  (∃ e ∈ entradas, dm ≤ e.capacidad ∧ linea = (e.nombre, e.precio) ∧
    ∀ e1 ∈ entradas, dm ≤ e1.capacidad → e.precio ≤ e1.precio)

/-- The formal content of the selection part of C1: the battery line item is
either the sentinel (when no row is eligible) or comes from an eligible row —
positive capacity, voltage evenly dividing the system voltage — whose
series count satisfies `series * volt = vs`, whose description and total
follow the series/parallel topology, and whose total `units * precio` is
minimal among eligible rows. -/
def LineaBateriaCorrecta (vs req : ℚ) (entradas : List EntradaBateria)
    (linea : String × ℚ) : Prop :=
  (linea = ("Sin datos", 0) ∧ ∀ e ∈ entradas, ¬ elegibleBateria vs e) ∨
  (∃ e ∈ entradas, elegibleBateria vs e ∧
    (en_serie vs e : ℚ) * e.volt = vs ∧
    linea = (descBateria vs req e, totalBateria vs req e) ∧
    ∀ e1 ∈ entradas, elegibleBateria vs e1 →
      totalBateria vs req e ≤ totalBateria vs req e1)

/-- The formal content of C1, bundling the voltage-tier derivation, the
depth-of-discharge factors, the required-amp-hours formula and the battery
selection policy. -/
def PoliticaBateriaOk (datos : Datos) (pp cb : ℚ) (cat : Categoria)
    (res : Resultados) : Prop :=
  (pp ≤ 1500 → volt_sistema pp = 12) ∧
  (¬ pp ≤ 1500 → pp ≤ 5000 → volt_sistema pp = 24) ∧
  (¬ pp ≤ 5000 → volt_sistema pp = 48) ∧
  dod .Barato = 1/2 ∧ dod .Intermedio = 1/2 ∧ dod .Premium = 9/10 ∧
  capacidad_requerida cat cb (volt_sistema pp)
      = cb * 12 / volt_sistema pp / dod cat ∧
  LineaBateriaCorrecta (volt_sistema pp)
    (capacidad_requerida cat cb (volt_sistema pp))
    (datos.baterias cat) ((res.get cat).baterias)

/-- The formal content of the sentinel part of C5: any family with no
eligible row in a tier yields `("Sin datos", 0)`. -/
def KitTotalOk (datos : Datos) (pp dm : ℚ) (res : Resultados) : Prop :=
  ∀ cat : Categoria,
    ((∀ e ∈ datos.paneles cat, e.capacidad ≤ 0) →
      (res.get cat).paneles = ("Sin datos", 0)) ∧
    ((∀ e ∈ datos.baterias cat, ¬ elegibleBateria (volt_sistema pp) e) →
      (res.get cat).baterias = ("Sin datos", 0)) ∧
    ((∀ e ∈ datos.inversores cat, ¬ dm ≤ e.capacidad) →
      (res.get cat).inversores = ("Sin datos", 0)) ∧
    (datos.controladores cat = [] →
      (res.get cat).controladores = ("Sin datos", 0))

/-- C2: for every catalog and tier with at least one panel row of positive
capacity, the panel line item chosen by `calcular_kit` attains the global
minimum of `ceil(potencia_panel / capacidad) * precio` over eligible rows,
with ties broken by input order (the first row attaining the minimum wins). -/
theorem calcular_kit_paneles_minimalidad (datos : Datos) (pp cb dm : ℚ)
    (cat : Categoria) (res : Resultados)
    (h : calcular_kit datos pp cb dm = Except.ok res)
    (hex : ∃ e ∈ datos.paneles cat, 0 < e.capacidad) :
    LineaPanelCorrecta pp (datos.paneles cat) ((res.get cat).paneles) := by
  obtain ⟨hpan, -, -, -, -⟩ := lineas_de_ok h cat
  rcases mejorOpcion_none_spec (candidatoPanel pp) (datos.paneles cat) with
    ⟨heq, hall⟩ | ⟨d, t, heq, hmin, l1, y, l2, hl, hy, hstr⟩
  · obtain ⟨e, he, hcap⟩ := hex
    have hne := (candidatoPanel_none_iff pp e).mp (hall e he)
    exact absurd hne (not_le.mpr hcap)
  · obtain ⟨hycap, hd, ht⟩ := (candidatoPanel_some_iff pp y d t).mp hy
    refine ⟨l1, y, l2, hl, hycap, ?_, ?_, ?_⟩
    · rw [hpan, heq]
      simp only [lineaFinal]
      rw [hd, ht]
    · intro e1 he1 hcap1
      have hle := hmin e1 he1 (descPanel pp e1) (totalPanel pp e1)
        ((candidatoPanel_some_iff pp e1 _ _).mpr ⟨hcap1, rfl, rfl⟩)
      rw [ht] at hle
      exact hle
    · intro e1 he1 hcap1
      have hlt := hstr e1 he1 (descPanel pp e1) (totalPanel pp e1)
        ((candidatoPanel_some_iff pp e1 _ _).mpr ⟨hcap1, rfl, rfl⟩)
      rw [ht] at hlt
      exact hlt

/-- C4: for every catalog and tier, the inverter line item chosen by
`calcular_kit` is the cheapest row whose capacity rating reaches the peak
simultaneous demand, and a row below that demand is never selected. -/
theorem calcular_kit_inversor_suficiente (datos : Datos) (pp cb dm : ℚ)
    (cat : Categoria) (res : Resultados)
    (h : calcular_kit datos pp cb dm = Except.ok res) :
    LineaInversorCorrecta dm (datos.inversores cat) ((res.get cat).inversores) := by
  obtain ⟨-, hinv, -, -, -⟩ := lineas_de_ok h cat
  rcases mejorOpcion_none_spec (candidatoInversor dm) (datos.inversores cat) with
    ⟨heq, hall⟩ | ⟨d, t, heq, hmin, l1, y, l2, hl, hy, hstr⟩
  · refine Or.inl ⟨?_, ?_⟩
    · rw [hinv, heq]; rfl
    · intro e he
      exact (candidatoInversor_none_iff dm e).mp (hall e he)
  · obtain ⟨hyc, hd, ht⟩ := (candidatoInversor_some_iff dm y d t).mp hy
    have hmem : y ∈ datos.inversores cat := by
      rw [hl]; exact List.mem_append_right l1 (List.mem_cons_self y l2)
    refine Or.inr ⟨y, hmem, hyc, ?_, ?_⟩
    · rw [hinv, heq]
      simp only [lineaFinal]
      rw [hd, ht]
    · intro e1 he1 hc1
      have hle := hmin e1 he1 e1.nombre e1.precio
        ((candidatoInversor_some_iff dm e1 _ _).mpr ⟨hc1, rfl, rfl⟩)
      rw [ht] at hle
      exact hle

/-- C1: for every catalog and tier, the battery line item chosen by
`calcular_kit` follows the topology-aware policy: system voltage 12/24/48 V
by panel-power tier, required amp-hours equal to the night energy divided by
the system voltage and the depth-of-discharge factor (0.5 Barato/Intermedio,
0.9 Premium), eligibility by even voltage division with
`series * volt = systemVoltage`, total units `series * parallel`, the row
minimizing `units * precio` selected, and the description recording the
series/parallel topology. -/
theorem calcular_kit_bateria_topologia (datos : Datos) (pp cb dm : ℚ)
    (cat : Categoria) (res : Resultados)
    (h : calcular_kit datos pp cb dm = Except.ok res) :
    PoliticaBateriaOk datos pp cb cat res := by
  obtain ⟨-, -, -, hbat, noerr⟩ := lineas_de_ok h cat
  refine ⟨?_, ?_, ?_, rfl, rfl, rfl, capacidad_requerida_eq cat cb (volt_sistema pp), ?_⟩
  · intro h1; unfold volt_sistema; rw [if_pos h1]
  · intro h1 h2; unfold volt_sistema; rw [if_neg h1, if_pos h2]
  · intro h2
    have h1 : ¬ pp ≤ 1500 := fun hc => h2 (le_trans hc (by norm_num))
    unfold volt_sistema; rw [if_neg h1, if_neg h2]
  · rcases mejorOpcion_none_spec
        (candidatoBateriaOk (volt_sistema pp) (capacidad_requerida cat cb (volt_sistema pp)))
        (datos.baterias cat) with
      ⟨heq, hall⟩ | ⟨d, t, heq, hmin, l1, y, l2, hl, hy, hstr⟩
    · refine Or.inl ⟨?_, ?_⟩
      · rw [hbat, heq]; rfl
      · intro e he
        exact (candidatoBateriaOk_none_iff _ _ e).mp (hall e he)
    · obtain ⟨hyel, hd, ht⟩ := (candidatoBateriaOk_some_iff _ _ y d t).mp hy
      have hmem : y ∈ datos.baterias cat := by
        rw [hl]; exact List.mem_append_right l1 (List.mem_cons_self y l2)
      refine Or.inr ⟨y, hmem, hyel, en_serie_mul_volt hyel.2.1 hyel.2.2, ?_, ?_⟩
      · rw [hbat, heq]
        simp only [lineaFinal]
        rw [hd, ht]
      · intro e1 he1 hel1
        have hle := hmin e1 he1 (descBateria _ _ e1) (totalBateria _ _ e1)
          ((candidatoBateriaOk_some_iff _ _ e1 _ _).mpr ⟨hel1, rfl, rfl⟩)
        rw [ht] at hle
        exact hle

theorem kit_sentinels {datos : Datos} {pp cb dm : ℚ} {res : Resultados}
    (h : calcular_kit datos pp cb dm = .ok res) :
    KitTotalOk datos pp dm res := by
  intro cat
  obtain ⟨hpan, hinv, hctr, hbat, -⟩ := lineas_de_ok h cat
  refine ⟨?_, ?_, ?_, ?_⟩
  · intro hall
    rw [hpan, mejorOpcion_all_none _ _ none
      (fun e he => (candidatoPanel_none_iff pp e).mpr (hall e he))]
    rfl
  · intro hall
    rw [hbat, mejorOpcion_all_none _ _ none
      (fun e he => (candidatoBateriaOk_none_iff _ _ e).mpr (hall e he))]
    rfl
  · intro hall
    rw [hinv, mejorOpcion_all_none _ _ none
      (fun e he => (candidatoInversor_none_iff dm e).mpr (hall e he))]
    rfl
  · intro hnil
    rw [hctr, hnil]
    rfl

/-- C5 (amended): whenever every battery row of positive capacity has a
nonzero nominal voltage, `calcular_kit` returns — without raising — a result
with a line item for each of the four families in each of the three tiers,
and any family with no eligible row in a tier gets the sentinel
`("Sin datos", 0)`. -/
theorem calcular_kit_total_sentinela (datos : Datos) (pp cb dm : ℚ)
    (hvolt : ∀ cat, ∀ e ∈ datos.baterias cat, 0 < e.capacidad → e.volt ≠ 0) :
    ∃ res, calcular_kit datos pp cb dm = Except.ok res ∧
      KitTotalOk datos pp dm res := by
  have noerr : ∀ cat, ∀ e ∈ datos.baterias cat,
      candidatoBateria (volt_sistema pp) (capacidad_requerida cat cb (volt_sistema pp)) e
        ≠ .error () :=
    fun cat e he => candidatoBateria_ne_error _ _ e (fun hcap => hvolt cat e he hcap)
  obtain ⟨kB, hkB⟩ : ∃ k, kitCategoria datos .Barato pp cb dm = .ok k :=
    ⟨_, kitCategoria_eq datos .Barato pp cb dm _
      (mejorOpcionE_ok_of_no_error _ _ none (noerr .Barato))⟩
  obtain ⟨kI, hkI⟩ : ∃ k, kitCategoria datos .Intermedio pp cb dm = .ok k :=
    ⟨_, kitCategoria_eq datos .Intermedio pp cb dm _
      (mejorOpcionE_ok_of_no_error _ _ none (noerr .Intermedio))⟩
  obtain ⟨kP, hkP⟩ : ∃ k, kitCategoria datos .Premium pp cb dm = .ok k :=
    ⟨_, kitCategoria_eq datos .Premium pp cb dm _
      (mejorOpcionE_ok_of_no_error _ _ none (noerr .Premium))⟩
  have hck : calcular_kit datos pp cb dm = .ok ⟨kB, kI, kP⟩ := by
    simp only [calcular_kit, hkB, hkI, hkP]
  exact ⟨⟨kB, kI, kP⟩, hck, kit_sentinels hck⟩

/-- A catalog holding one battery row with positive capacity and zero
nominal voltage. -/
def datosError : Datos where
  paneles := fun _ => []
  baterias := fun _ => [⟨"B", 1, 0, 1⟩]
  inversores := fun _ => []
  controladores := fun _ => []

/-- C5 counterexample: on a catalog whose (Barato) battery list holds a row
of capacity 1 Ah and nominal voltage 0, `calcular_kit` raises
(`ZeroDivisionError` at `volt_sistema % volt` in the source) instead of
returning a result, refuting the claim that it returns without exception for
every catalog input. -/
theorem calcular_kit_excepcion_volt_cero :
    calcular_kit datosError 0 0 0 = Except.error () := rfl

/-- Evaluate `Int.ceil` on a rational from two numeric bounds. -/
theorem ceil_eval {a : ℚ} {z : ℤ} (h1 : (z : ℚ) - 1 < a) (h2 : a ≤ (z : ℚ)) :
    ⌈a⌉ = z := Int.ceil_eq_iff.mpr ⟨h1, h2⟩

/-- The B1 row of the documented simple-policy scenario: 40 Ah at 40. -/
def b1 : EntradaBateria := ⟨"B1", 40, 12, 40⟩

/-- The B2 row of the documented simple-policy scenario: 60 Ah at 55. -/
def b2 : EntradaBateria := ⟨"B2", 60, 12, 55⟩

/-- The formal content of C3: the documented two-row scenario of the simple
battery policy, its general minimization property over rows of positive
capacity, and its independence from the voltage column. -/
def PoliticaSimpleOk : Prop :=
  candidatoBateriaSimple 100 b1 = some ("3 x B1", 120) ∧
  candidatoBateriaSimple 100 b2 = some ("2 x B2", 110) ∧
  seleccion_bateria_simple [b1, b2] 100 = ("2 x B2", 110) ∧
  (∀ (entradas : List EntradaBateria) (cap : ℚ),
    (∃ e ∈ entradas, 0 < e.capacidad) →
    ∃ e1 ∈ entradas, 0 < e1.capacidad ∧
      seleccion_bateria_simple entradas cap = (descSimple cap e1, totalSimple cap e1) ∧
      ∀ e2 ∈ entradas, 0 < e2.capacidad →
        totalSimple cap e1 ≤ totalSimple cap e2) ∧
  (∀ (entradas : List EntradaBateria) (cap v : ℚ),
    seleccion_bateria_simple
        (entradas.map fun e => ⟨e.nombre, e.capacidad, v, e.precio⟩) cap
      = seleccion_bateria_simple entradas cap)

/-- C3: under the simple battery policy (spec-modelled, absent from `src/`),
with 100 Ah required and rows B1 (40 Ah, 40) and B2 (60 Ah, 55), B1 needs 3
units costing 120 and B2 needs 2 units costing 110, so B2 is selected; in
general the policy minimizes `ceil(batteryAh / capacidad) * precio` over
rows of positive capacity, ignoring the voltage column. -/
theorem politica_bateria_simple : PoliticaSimpleOk := by
  have hq1 : cantidadSimple 100 b1 = 3 := by
    unfold cantidadSimple
    refine ceil_eval ?_ ?_ <;> norm_num [b1]
  have hq2 : cantidadSimple 100 b2 = 2 := by
    unfold cantidadSimple
    refine ceil_eval ?_ ?_ <;> norm_num [b2]
  have hd1 : descSimple 100 b1 = "3 x B1" := by
    unfold descSimple; rw [hq1]; rfl
  have hd2 : descSimple 100 b2 = "2 x B2" := by
    unfold descSimple; rw [hq2]; rfl
  have ht1 : totalSimple 100 b1 = 120 := by
    unfold totalSimple; rw [hq1]; norm_num [b1]
  have ht2 : totalSimple 100 b2 = 110 := by
    unfold totalSimple; rw [hq2]; norm_num [b2]
  have h1 : candidatoBateriaSimple 100 b1 = some ("3 x B1", 120) := by
    unfold candidatoBateriaSimple
    rw [if_neg (by norm_num [b1] : ¬ b1.capacidad ≤ 0), hd1, ht1]
  have h2 : candidatoBateriaSimple 100 b2 = some ("2 x B2", 110) := by
    unfold candidatoBateriaSimple
    rw [if_neg (by norm_num [b2] : ¬ b2.capacidad ≤ 0), hd2, ht2]
  have h3 : seleccion_bateria_simple [b1, b2] 100 = ("2 x B2", 110) := by
    unfold seleccion_bateria_simple
    rw [mejorOpcion_cons_some_start _ b1 [b2] _ _ h1,
      mejorOpcion_cons_some_lt _ b2 [] "2 x B2" "3 x B1" 110 120 h2 (by norm_num)]
    rfl
  refine ⟨h1, h2, h3, ?_, ?_⟩
  · intro entradas cap hex
    rcases mejorOpcion_none_spec (candidatoBateriaSimple cap) entradas with
      ⟨heq, hall⟩ | ⟨d, t, heq, hmin, l1, y, l2, hl, hy, hstr⟩
    · obtain ⟨e, he, hcap⟩ := hex
      exact absurd ((candidatoBateriaSimple_none_iff cap e).mp (hall e he))
        (not_le.mpr hcap)
    · obtain ⟨hyc, hd, ht⟩ := (candidatoBateriaSimple_some_iff cap y d t).mp hy
      have hmem : y ∈ entradas := by
        rw [hl]; exact List.mem_append_right l1 (List.mem_cons_self y l2)
      refine ⟨y, hmem, hyc, ?_, ?_⟩
      · unfold seleccion_bateria_simple
        rw [heq]
        simp only [lineaFinal]
        rw [hd, ht]
      · intro e2 he2 hc2
        have hle := hmin e2 he2 (descSimple cap e2) (totalSimple cap e2)
          ((candidatoBateriaSimple_some_iff cap e2 _ _).mpr ⟨hc2, rfl, rfl⟩)
        rw [ht] at hle
        exact hle
  · intro entradas cap v
    unfold seleccion_bateria_simple
    rw [mejorOpcion_map _ _ entradas none]
    congr 1

/-- C6: for every load list and curve, the effective sun hours are the
constant 5, the required panel power is the total energy divided by the sun
hours (the `hs == 0` guard never firing since `hs = 5`), and the required
battery capacity is the night energy divided by 12. -/
theorem calcular_necesidades_formulas (cargas : List Carga) (curva : Curva) :
    horas_solares_efectivas curva = 5 ∧
    calcular_necesidades cargas curva =
      (((energia_dia_noche cargas curva).1 + (energia_dia_noche cargas curva).2)
          / horas_solares_efectivas curva,
       (energia_dia_noche cargas curva).2 / 12) := by
  refine ⟨rfl, ?_⟩
  simp only [calcular_necesidades, horas_solares_efectivas]
  norm_num

theorem foldl_add_eq_sum (l : List ℚ) : ∀ a : ℚ,
    l.foldl (fun x y => x + y) a = a + l.sum := by
  induction l with
  | nil => intro a; simp
  | cons x xs ih => intro a; simp only [List.foldl_cons, List.sum_cons, ih]; ring

/-- The formal content of C7: the financial formulas of
`calcular_amortizacion`, with the two guarded ratios resolving to `⊤`
exactly on a zero denominator. -/
def AmortizacionOk (presupuesto : List (String × ℚ)) (daily_kwh : ℚ) : Prop :=
  (calcular_amortizacion presupuesto daily_kwh).1
      = (presupuesto.map fun p => p.2).sum ∧
  (daily_kwh * COSTO_RED * 365 ≠ 0 →
    (calcular_amortizacion presupuesto daily_kwh).2.2.1
      = (((presupuesto.map fun p => p.2).sum
            / (daily_kwh * COSTO_RED * 365) : ℚ) : WithTop ℚ)) ∧
  (daily_kwh * COSTO_RED * 365 = 0 →
    (calcular_amortizacion presupuesto daily_kwh).2.2.1 = (⊤ : WithTop ℚ)) ∧
  (daily_kwh ≠ 0 →
    (calcular_amortizacion presupuesto daily_kwh).2.1
      = (((presupuesto.map fun p => p.2).sum
            / (daily_kwh * 365 * VIDA_UTIL_ANIOS) : ℚ) : WithTop ℚ)) ∧
  (daily_kwh = 0 →
    (calcular_amortizacion presupuesto daily_kwh).2.1 = (⊤ : WithTop ℚ)) ∧
  (calcular_amortizacion presupuesto daily_kwh).2.2.2
      = daily_kwh * COSTO_RED * 365 * VIDA_UTIL_ANIOS
          - (presupuesto.map fun p => p.2).sum

/-- C7: for every budget mapping and every `daily_kwh ≥ 0`,
`calcular_amortizacion` returns the sum of the line prices as system cost,
the guarded payback and cost-per-kWh ratios (infinite exactly on a zero
denominator), and the lifetime savings, with no exception on degenerate
inputs (the function is total). -/
theorem calcular_amortizacion_formulas (presupuesto : List (String × ℚ))
    (daily_kwh : ℚ) (h : 0 ≤ daily_kwh) :
    AmortizacionOk presupuesto daily_kwh := by
  have hsum : (presupuesto.map fun p => p.2).foldl (fun a b => a + b) 0
      = (presupuesto.map fun p => p.2).sum := by
    rw [foldl_add_eq_sum, zero_add]
  refine ⟨hsum, ?_, ?_, ?_, ?_, ?_⟩
  · intro hne
    show (if daily_kwh * COSTO_RED * 365 ≠ 0 then _ else _) = _
    rw [if_pos hne, hsum]
  · intro hz
    show (if daily_kwh * COSTO_RED * 365 ≠ 0 then _ else _) = _
    rw [if_neg (not_not.mpr hz)]
  · intro hne
    show (if daily_kwh ≠ 0 then _ else _) = _
    rw [if_pos hne, hsum]
  · intro hz
    show (if daily_kwh ≠ 0 then _ else _) = _
    rw [if_neg (not_not.mpr hz)]
  · show daily_kwh * COSTO_RED * 365 * VIDA_UTIL_ANIOS - _ = _
    rw [hsum]

theorem foldl_add_carga (l : List Carga) : ∀ a : ℚ,
    l.foldl (fun acc c => acc + c.carga * c.cantidad) a
      = a + (l.map fun c => c.carga * c.cantidad).sum := by
  induction l with
  | nil => intro a; simp
  | cons c cs ih =>
    intro a
    simp only [List.foldl_cons, List.map_cons, List.sum_cons, ih]
    ring

/-- C8: for every load list, the peak simultaneous demand is the sum over
loads of quantity times unit power — the worst-case fallback of everything
on at once, since duration-form loads carry no absolute schedule. -/
theorem potencia_maxima_demanda_suma (cargas : List Carga) :
    potencia_maxima_demanda cargas
      = (cargas.map fun c => c.cantidad * c.carga).sum := by
  unfold potencia_maxima_demanda
  rw [foldl_add_carga cargas 0, zero_add]
  rw [show (fun (c : Carga) => c.cantidad * c.carga)
        = fun c => c.carga * c.cantidad from funext fun c => mul_comm _ _]

theorem foldl_pasoEnergia (l : List Carga) : ∀ a b : ℚ,
    l.foldl pasoEnergia (a, b)
      = (a + (l.map fun c => c.carga * c.cantidad * c.horas_dia).sum,
         b + (l.map fun c => c.carga * c.cantidad * c.horas_noche).sum) := by
  induction l with
  | nil => intro a b; simp
  | cons c cs ih =>
    intro a b
    rw [List.foldl_cons,
      show pasoEnergia (a, b) c
          = (a + c.carga * c.cantidad * c.horas_dia,
             b + c.carga * c.cantidad * c.horas_noche) from rfl,
      ih]
    simp only [List.map_cons, List.sum_cons]
    refine Prod.ext ?_ ?_ <;> simp <;> ring

theorem sum_dia_noche (l : List Carga) :
    (l.map fun c => c.carga * c.cantidad * c.horas_dia).sum
      + (l.map fun c => c.carga * c.cantidad * c.horas_noche).sum
      = (l.map fun c => c.cantidad * c.carga * (c.horas_dia + c.horas_noche)).sum := by
  induction l with
  | nil => simp
  | cons c cs ih =>
    simp only [List.map_cons, List.sum_cons]
    have hc : c.cantidad * c.carga * (c.horas_dia + c.horas_noche)
        = c.carga * c.cantidad * c.horas_dia
            + c.carga * c.cantidad * c.horas_noche := by ring
    rw [hc]
    linarith

/-- C9: for every load list with non-negative quantities, powers and hours,
day energy plus night energy equals the sum over loads of
`quantity * power * (dayHours + nightHours)` — total energy is conserved by
the split. -/
theorem energia_total_conservada (cargas : List Carga) (curva : Curva)
    (h : ∀ c ∈ cargas,
      0 ≤ c.cantidad ∧ 0 ≤ c.carga ∧ 0 ≤ c.horas_dia ∧ 0 ≤ c.horas_noche) :
    (energia_dia_noche cargas curva).1 + (energia_dia_noche cargas curva).2
      = (cargas.map fun c =>
          c.cantidad * c.carga * (c.horas_dia + c.horas_noche)).sum := by
  unfold energia_dia_noche
  rw [foldl_pasoEnergia cargas 0 0]
  simp only [zero_add]
  exact sum_dia_noche cargas

/-- C10: the irradiance-curve argument has no influence on the day/night
energy split nor on the sizing outputs: both `energia_dia_noche` and
`calcular_necesidades` return identical values for any two curves. -/
theorem curva_sin_influencia (cargas : List Carga) (c1 c2 : Curva) :
    energia_dia_noche cargas c1 = energia_dia_noche cargas c2 ∧
    calcular_necesidades cargas c1 = calcular_necesidades cargas c2 :=
  ⟨rfl, rfl⟩

/-- A concrete panel row: 50 W at 60. -/
def p0 : EntradaSimple := ⟨"P1", 50, 60⟩

/-- A concrete battery row: 40 Ah, 12 V, at 40. -/
def b0 : EntradaBateria := ⟨"B1", 40, 12, 40⟩

/-- A concrete inverter row: 500 W at 150. -/
def i0 : EntradaSimple := ⟨"Inv500", 500, 150⟩

/-- A concrete controller row: 10 A at 30. -/
def c0 : EntradaSimple := ⟨"PWM10", 10, 30⟩

/-- A concrete one-row-per-family catalog, the same in every category. -/
def datos0 : Datos where
  paneles := fun _ => [p0]
  baterias := fun _ => [b0]
  inversores := fun _ => [i0]
  controladores := fun _ => [c0]

/-- The kit `calcular_kit` builds from `datos0` at 48 W / 100 Ah / 100 W for
the Barato and Intermedio categories (DoD 0.5, bank of 200 Ah at 12 V). -/
def kitBar : Kit :=
  ⟨("1 x P1", 60), ("5 x B1 (1S5P)", 200), ("Inv500", 150), ("PWM10", 30)⟩

/-- The kit `calcular_kit` builds from `datos0` at 48 W / 100 Ah / 100 W for
the Premium category (DoD 0.9, bank of 1000/9 Ah at 12 V). -/
def kitPre : Kit :=
  ⟨("1 x P1", 60), ("3 x B1 (1S3P)", 120), ("Inv500", 150), ("PWM10", 30)⟩

/-- The full result of `calcular_kit datos0 48 100 100`. -/
def res0 : Resultados := ⟨kitBar, kitBar, kitPre⟩

theorem calcular_kit_datos0 : calcular_kit datos0 48 100 100 = Except.ok res0 := by
  have hvs : volt_sistema 48 = 12 := by
    unfold volt_sistema; rw [if_pos (by norm_num : (48 : ℚ) ≤ 1500)]
  have hcp : cantidadPanel 48 p0 = 1 := by
    unfold cantidadPanel
    refine ceil_eval ?_ ?_ <;> norm_num [p0]
  have hdp : descPanel 48 p0 = "1 x P1" := by
    unfold descPanel; rw [hcp]; rfl
  have htp : totalPanel 48 p0 = 60 := by
    unfold totalPanel; rw [hcp]; norm_num [p0]
  have hcandp : candidatoPanel 48 p0 = some ("1 x P1", 60) := by
    unfold candidatoPanel
    rw [if_neg (by norm_num [p0] : ¬ p0.capacidad ≤ 0), hdp, htp]
  have hfoldP : mejorOpcion (candidatoPanel 48) [p0] none = some ("1 x P1", 60) := by
    rw [mejorOpcion_cons_some_start _ p0 [] _ _ hcandp]
    rfl
  have hci : candidatoInversor 100 i0 = some ("Inv500", 150) := by
    unfold candidatoInversor
    rw [if_pos (by norm_num [i0] : (100 : ℚ) ≤ i0.capacidad)]
    rfl
  have hfoldI : mejorOpcion (candidatoInversor 100) [i0] none = some ("Inv500", 150) := by
    rw [mejorOpcion_cons_some_start _ i0 [] _ _ hci]
    rfl
  have hcc : candidatoControlador c0 = some ("PWM10", 30) := rfl
  have hfoldC : mejorOpcion candidatoControlador [c0] none = some ("PWM10", 30) := by
    rw [mejorOpcion_cons_some_start _ c0 [] _ _ hcc]
    rfl
  have hreqB : capacidad_requerida .Barato 100 12 = 200 := by
    rw [capacidad_requerida_eq]; norm_num [dod]
  have hreqI : capacidad_requerida .Intermedio 100 12 = 200 := by
    rw [capacidad_requerida_eq]; norm_num [dod]
  have hreqP : capacidad_requerida .Premium 100 12 = 1000/9 := by
    rw [capacidad_requerida_eq]; norm_num [dod]
  have hdiv : (12 : ℚ) / b0.volt = 1 := by norm_num [b0]
  have hserie : en_serie 12 b0 = 1 := by
    unfold en_serie
    rw [hdiv]
    unfold ratTrunc
    rw [if_pos (by norm_num : (0 : ℚ) ≤ 1), Int.floor_one]
  have hpy : pymod 12 b0.volt = 0 := by
    unfold pymod
    rw [hdiv, Int.floor_one]
    norm_num [b0]
  have hparB : en_paralelo 200 b0 = 5 := by
    unfold en_paralelo
    refine ceil_eval ?_ ?_ <;> norm_num [b0]
  have hparP : en_paralelo (1000/9) b0 = 3 := by
    unfold en_paralelo
    refine ceil_eval ?_ ?_ <;> norm_num [b0]
  have huB : unidadesBateria 12 200 b0 = 5 := by
    unfold unidadesBateria; rw [hserie, hparB]; norm_num
  have huP : unidadesBateria 12 (1000/9) b0 = 3 := by
    unfold unidadesBateria; rw [hserie, hparP]; norm_num
  have hdB : descBateria 12 200 b0 = "5 x B1 (1S5P)" := by
    unfold descBateria; rw [huB, hserie, hparB]; rfl
  have hdP : descBateria 12 (1000/9) b0 = "3 x B1 (1S3P)" := by
    unfold descBateria; rw [huP, hserie, hparP]; rfl
  have htB : totalBateria 12 200 b0 = 200 := by
    unfold totalBateria; rw [huB]; norm_num [b0]
  have htP : totalBateria 12 (1000/9) b0 = 120 := by
    unfold totalBateria; rw [huP]; norm_num [b0]
  have hcbB : candidatoBateria 12 200 b0 = .ok (some ("5 x B1 (1S5P)", 200)) := by
    unfold candidatoBateria
    rw [if_neg (by norm_num [b0] : ¬ b0.capacidad ≤ 0),
      if_neg (by norm_num [b0] : ¬ b0.volt = 0),
      if_neg (not_not.mpr hpy), hdB, htB]
  have hcbP : candidatoBateria 12 (1000/9) b0 = .ok (some ("3 x B1 (1S3P)", 120)) := by
    unfold candidatoBateria
    rw [if_neg (by norm_num [b0] : ¬ b0.capacidad ≤ 0),
      if_neg (by norm_num [b0] : ¬ b0.volt = 0),
      if_neg (not_not.mpr hpy), hdP, htP]
  have hfbB : mejorOpcionE (candidatoBateria 12 200) [b0] none
      = .ok (some ("5 x B1 (1S5P)", 200)) := by
    simp only [mejorOpcionE, hcbB]
  have hfbP : mejorOpcionE (candidatoBateria 12 (1000/9)) [b0] none
      = .ok (some ("3 x B1 (1S3P)", 120)) := by
    simp only [mejorOpcionE, hcbP]
  have hkB : kitCategoria datos0 .Barato 48 100 100 = .ok kitBar := by
    have hE : mejorOpcionE
        (candidatoBateria (volt_sistema 48) (capacidad_requerida .Barato 100 (volt_sistema 48)))
        (datos0.baterias .Barato) none = .ok (some ("5 x B1 (1S5P)", 200)) := by
      rw [hvs, hreqB]; exact hfbB
    rw [kitCategoria_eq datos0 .Barato 48 100 100 _ hE]
    simp only [datos0]
    rw [hfoldP, hfoldI, hfoldC]
    simp only [lineaFinal, kitBar]
  have hkI : kitCategoria datos0 .Intermedio 48 100 100 = .ok kitBar := by
    have hE : mejorOpcionE
        (candidatoBateria (volt_sistema 48) (capacidad_requerida .Intermedio 100 (volt_sistema 48)))
        (datos0.baterias .Intermedio) none = .ok (some ("5 x B1 (1S5P)", 200)) := by
      rw [hvs, hreqI]; exact hfbB
    rw [kitCategoria_eq datos0 .Intermedio 48 100 100 _ hE]
    simp only [datos0]
    rw [hfoldP, hfoldI, hfoldC]
    simp only [lineaFinal, kitBar]
  have hkP : kitCategoria datos0 .Premium 48 100 100 = .ok kitPre := by
    have hE : mejorOpcionE
        (candidatoBateria (volt_sistema 48) (capacidad_requerida .Premium 100 (volt_sistema 48)))
        (datos0.baterias .Premium) none = .ok (some ("3 x B1 (1S3P)", 120)) := by
      rw [hvs, hreqP]; exact hfbP
    rw [kitCategoria_eq datos0 .Premium 48 100 100 _ hE]
    simp only [datos0]
    rw [hfoldP, hfoldI, hfoldC]
    simp only [lineaFinal, kitPre]
  simp only [calcular_kit, hkB, hkI, hkP, res0]

/-- Witness for C1: the battery policy facts hold on the concrete run
`calcular_kit datos0 48 100 100` in the Barato category. -/
theorem calcular_kit_bateria_topologia_witness :
    PoliticaBateriaOk datos0 48 100 Categoria.Barato res0 :=
  calcular_kit_bateria_topologia datos0 48 100 100 Categoria.Barato res0
    calcular_kit_datos0

/-- Witness for C2: panel minimality holds on the concrete run
`calcular_kit datos0 48 100 100` in the Barato category. -/
theorem calcular_kit_paneles_minimalidad_witness :
    LineaPanelCorrecta 48 (datos0.paneles Categoria.Barato)
      ((res0.get Categoria.Barato).paneles) :=
  calcular_kit_paneles_minimalidad datos0 48 100 100 Categoria.Barato res0
    calcular_kit_datos0 ⟨p0, List.mem_singleton_self p0, by norm_num [p0]⟩

/-- Witness for C4: inverter sufficiency holds on the concrete run
`calcular_kit datos0 48 100 100` in the Barato category. -/
theorem calcular_kit_inversor_suficiente_witness :
    LineaInversorCorrecta 100 (datos0.inversores Categoria.Barato)
      ((res0.get Categoria.Barato).inversores) :=
  calcular_kit_inversor_suficiente datos0 48 100 100 Categoria.Barato res0
    calcular_kit_datos0

/-- Witness for C5: on the concrete catalog `datos0`, whose battery rows all
have nonzero voltage, `calcular_kit` returns a full result. -/
theorem calcular_kit_total_sentinela_witness :
    ∃ res, calcular_kit datos0 48 100 100 = Except.ok res ∧
      KitTotalOk datos0 48 100 res :=
  calcular_kit_total_sentinela datos0 48 100 100 (by
    intro cat e he hcap
    have hb : e = b0 := List.mem_singleton.mp he
    subst hb
    norm_num [b0])

/-- Witness for C3: the general minimality conjunct instantiated on the
documented two-row scenario. -/
theorem politica_bateria_simple_witness :
    ∃ e1 ∈ [b1, b2], 0 < e1.capacidad ∧
      seleccion_bateria_simple [b1, b2] 100
        = (descSimple 100 e1, totalSimple 100 e1) ∧
      ∀ e2 ∈ [b1, b2], 0 < e2.capacidad →
        totalSimple 100 e1 ≤ totalSimple 100 e2 :=
  politica_bateria_simple.2.2.2.1 [b1, b2] 100
    ⟨b1, List.mem_cons_self b1 [b2], by norm_num [b1]⟩

/-- Witness for C7: the financial formulas at a one-line budget of price 100
and 2 kWh per day. -/
theorem calcular_amortizacion_formulas_witness :
    AmortizacionOk [("Kit", 100)] 2 :=
  calcular_amortizacion_formulas [("Kit", 100)] 2 (by norm_num)

/-- A concrete load: 2 televisions of 60 W, 2 day hours and 3 night hours. -/
def carga0 : Carga := ⟨"TV", 2, 60, 2, 3⟩

/-- Witness for C9: energy conservation on a concrete one-load list. -/
theorem energia_total_conservada_witness :
    (energia_dia_noche [carga0] curva_irradiacion_cusco).1
      + (energia_dia_noche [carga0] curva_irradiacion_cusco).2
      = ([carga0].map fun c =>
          c.cantidad * c.carga * (c.horas_dia + c.horas_noche)).sum :=
  energia_total_conservada [carga0] curva_irradiacion_cusco (by
    intro c hc
    have hcc : c = carga0 := List.mem_singleton.mp hc
    subst hcc
    norm_num [carga0])

end Solar
